import Mathlib

/-!
Verification development for the TCG receipt-kiosk repository.

Each Python function that a claim depends on is embedded as an executable
Lean definition, translated directly from the source:

* `food_label.py` — Norwegian-character replacement (`replace_norwegian_chars`,
  `replace_norwegian_chars_regex`) and the code-page trial loop
  (`test_encoding_options`);
* `main.py` — `TCGApp.wrap_text`, `TCGApp.take_and_process_photo_custom`
  (resize arithmetic), `TCGApp.generate_receipt`, `TCGApp.print_receipt`,
  `TCGApp.create_receipt_record`;
* `getRandomPerson.py` — `get_weighted_rarity` (via a model of CPython
  `random.choices`), `get_people_by_rarity`, `get_random_person`.

Machine reals in the Python code (`random.random()`, weight arithmetic,
the `original_height / original_width` aspect ratio) are modelled with exact
rationals; all counterexamples below are robust to double-precision rounding.
-/

/-! ## food_label.py — Norwegian character replacement (lines 9-33)

The Python dict `NORWEGIAN_CHAR_MAP` maps each of the six Norwegian letters
to a `\xNN` escape.  In a Python `str`, `'\xF8'` denotes the code point
U+00F8, which is the letter `ø` itself (and likewise for the other five),
so each value coincides with its key.  The embedding keeps the `\xNN`
values as `Char.ofNat` of the same code points. -/

def NORWEGIAN_CHAR_MAP : List (Char × Char) :=
  [('ø', Char.ofNat 0xF8), ('Ø', Char.ofNat 0xD8), ('å', Char.ofNat 0xE5),
   ('Å', Char.ofNat 0xC5), ('æ', Char.ofNat 0xE6), ('Æ', Char.ofNat 0xC6)]

/-- Python `text.replace(old, rep)` restricted to the case used in
`food_label.py`, where `old` and `rep` are single characters: every
occurrence of `old` is substituted, all other characters kept. -/
def str_replace_char (s : String) (old rep : Char) : String :=
  String.mk (s.toList.map (fun c => if c = old then rep else c))

/-- `food_label.replace_norwegian_chars` (lines 18-22): one `str.replace`
per map entry, applied in the dict's insertion order. -/
def replace_norwegian_chars (text : String) : String :=
  NORWEGIAN_CHAR_MAP.foldl (fun t p => str_replace_char t p.1 p.2) text

/-- The per-character action of `replace_match` inside
`food_label.replace_norwegian_chars_regex`: `NORWEGIAN_CHAR_MAP.get(char, char)`. -/
def norwegianSubst (c : Char) : Char :=
  match NORWEGIAN_CHAR_MAP.lookup c with
  | some r => r
  | none => c

/-- `food_label.replace_norwegian_chars_regex` (lines 24-33): `re.sub` with
pattern `[øØåÅæÆ]` and replacement `replace_match`.  Since the pattern set
equals the key set of the map, this substitutes `norwegianSubst` at every
character (characters outside the class are untouched by `re.sub`, and
`norwegianSubst` fixes exactly those). -/
def replace_norwegian_chars_regex (text : String) : String :=
  String.mk (text.toList.map norwegianSubst)

theorem str_replace_char_self (s : String) (c : Char) :
    str_replace_char s c c = s := by
  unfold str_replace_char
  have h : s.toList.map (fun x => if x = c then c else x) = s.toList := by
    have he : (fun x => if x = c then c else x) = fun x : Char => x := by
      funext x
      by_cases hx : x = c <;> simp [hx]
    rw [he, List.map_id']
  rw [h]
  cases s
  rfl

theorem replace_norwegian_chars_eq_self (s : String) :
    replace_norwegian_chars s = s := by
  have hmap : NORWEGIAN_CHAR_MAP
      = [('ø', 'ø'), ('Ø', 'Ø'), ('å', 'å'), ('Å', 'Å'), ('æ', 'æ'), ('Æ', 'Æ')] := by
    decide
  unfold replace_norwegian_chars
  rw [hmap]
  simp only [List.foldl_cons, List.foldl_nil, str_replace_char_self]

theorem norwegianSubst_eq_self (c : Char) : norwegianSubst c = c := by
  rcases eq_or_ne c 'ø' with h | h1
  · subst h; decide
  rcases eq_or_ne c 'Ø' with h | h2
  · subst h; decide
  rcases eq_or_ne c 'å' with h | h3
  · subst h; decide
  rcases eq_or_ne c 'Å' with h | h4
  · subst h; decide
  rcases eq_or_ne c 'æ' with h | h5
  · subst h; decide
  rcases eq_or_ne c 'Æ' with h | h6
  · subst h; decide
  have e1 : (c == 'ø') = false := beq_eq_false_iff_ne.mpr h1
  have e2 : (c == 'Ø') = false := beq_eq_false_iff_ne.mpr h2
  have e3 : (c == 'å') = false := beq_eq_false_iff_ne.mpr h3
  have e4 : (c == 'Å') = false := beq_eq_false_iff_ne.mpr h4
  have e5 : (c == 'æ') = false := beq_eq_false_iff_ne.mpr h5
  have e6 : (c == 'Æ') = false := beq_eq_false_iff_ne.mpr h6
  unfold norwegianSubst NORWEGIAN_CHAR_MAP
  simp [List.lookup, e1, e2, e3, e4, e5, e6]

theorem replace_norwegian_chars_regex_eq_self (s : String) :
    replace_norwegian_chars_regex s = s := by
  unfold replace_norwegian_chars_regex
  have h : s.toList.map norwegianSubst = s.toList := by
    have he : norwegianSubst = fun c : Char => c := by
      funext c
      exact norwegianSubst_eq_self c
    rw [he, List.map_id']
  rw [h]
  cases s
  rfl

/-- C9: for every input string, `replace_norwegian_chars` and
`replace_norwegian_chars_regex` return the same result; each of the six
Norwegian characters is replaced by the corresponding single Latin-1
character (the `\xNN` escapes in the map denote exactly the code points of
the keys, so the substitution `norwegianSubst` fixes every character),
every other character is left unchanged, and the output has the same
length as the input. -/
theorem C9_replace_norwegian_chars_equiv (s : String) :
    replace_norwegian_chars s = replace_norwegian_chars_regex s
    ∧ (replace_norwegian_chars s).toList = s.toList.map norwegianSubst
    ∧ (replace_norwegian_chars s).length = s.length := by
  have h1 := replace_norwegian_chars_eq_self s
  have h2 := replace_norwegian_chars_regex_eq_self s
  refine ⟨h1.trans h2.symm, ?_, by rw [h1]⟩
  rw [h1]
  have he : norwegianSubst = fun c : Char => c := by
    funext c
    exact norwegianSubst_eq_self c
  rw [he, List.map_id']

/-! ## main.py — `TCGApp.wrap_text` (lines 606-626)

`text.split()` (whitespace split, empty fields dropped) followed by the
greedy accumulation loop.  `pySplitAux` models CPython `str.split()` with
no separator argument; `wrapLoop` is the loop of `wrap_text` with the two
mutable locals `current_line` and `lines` made explicit. -/

def pySplitAux : List Char → List Char → List String
  | [], acc => if acc.isEmpty then [] else [String.mk acc.reverse]
  | c :: cs, acc =>
    if c.isWhitespace then
      if acc.isEmpty then pySplitAux cs []
      else String.mk acc.reverse :: pySplitAux cs []
    else pySplitAux cs (c :: acc)

/-- Python `text.split()`: split on runs of whitespace, discarding empty
fields and leading/trailing whitespace. -/
def pySplit (s : String) : List String :=
  pySplitAux s.toList []

/-- The `for word in words` loop of `TCGApp.wrap_text`, including the final
`if current_line: lines.append(current_line)`.  Python's emptiness test
`if current_line:` is `current_line = ""` here.  Note the accumulation guard
is `len(current_line + " " + word) <= width` even when `current_line` is
empty. -/
def wrapLoop (width : Nat) : List String → String → List String → List String
  | [], current_line, lines =>
    if current_line = "" then lines else lines ++ [current_line]
  | word :: rest, current_line, lines =>
    if (current_line ++ " " ++ word).length ≤ width then
      if current_line = "" then wrapLoop width rest word lines
      else wrapLoop width rest (current_line ++ " " ++ word) lines
    else
      if current_line = "" then wrapLoop width rest word lines
      else wrapLoop width rest word (lines ++ [current_line])

/-- `TCGApp.wrap_text(text, width)`. -/
def wrap_text (text : String) (width : Nat) : List String :=
  wrapLoop width (pySplit text) "" []

theorem wrapLoop_line_short_or_word (width : Nat) (allWords : List String) :
    ∀ (ws : List String) (current_line : String) (lines : List String),
      (∀ w ∈ ws, w ∈ allWords) →
      (current_line = "" ∨ current_line.length ≤ width ∨ current_line ∈ allWords) →
      (∀ l ∈ lines, l.length ≤ width ∨ l ∈ allWords) →
      ∀ l ∈ wrapLoop width ws current_line lines,
        l.length ≤ width ∨ l ∈ allWords := by
  intro ws
  induction ws with
  | nil =>
    intro current_line lines _ hcur hlines l hl
    rw [wrapLoop] at hl
    by_cases hc : current_line = ""
    · rw [if_pos hc] at hl
      exact hlines l hl
    · rw [if_neg hc] at hl
      rcases List.mem_append.mp hl with h | h
      · exact hlines l h
      · rcases List.mem_singleton.mp h with rfl
        rcases hcur with h | h | h
        · exact absurd h hc
        · exact Or.inl h
        · exact Or.inr h
  | cons word rest ih =>
    intro current_line lines hws hcur hlines l hl
    have hword : word ∈ allWords := hws word (List.mem_cons_self _ _)
    have hrest : ∀ w ∈ rest, w ∈ allWords := fun w hw => hws w (List.mem_cons_of_mem _ hw)
    rw [wrapLoop] at hl
    by_cases hfit : (current_line ++ " " ++ word).length ≤ width
    · rw [if_pos hfit] at hl
      by_cases hc : current_line = ""
      · rw [if_pos hc] at hl
        exact ih word lines hrest (Or.inr (Or.inr hword)) hlines l hl
      · rw [if_neg hc] at hl
        exact ih (current_line ++ " " ++ word) lines hrest (Or.inr (Or.inl hfit)) hlines l hl
    · rw [if_neg hfit] at hl
      by_cases hc : current_line = ""
      · rw [if_pos hc] at hl
        exact ih word lines hrest (Or.inr (Or.inr hword)) hlines l hl
      · rw [if_neg hc] at hl
        refine ih word (lines ++ [current_line]) hrest (Or.inr (Or.inr hword)) ?_ l hl
        intro x hx
        rcases List.mem_append.mp hx with h | h
        · exact hlines x h
        · rcases List.mem_singleton.mp h with rfl
          rcases hcur with h | h | h
          · exact absurd h hc
          · exact Or.inl h
          · exact Or.inr h

/-- C2: the word-wrap splits the text into whitespace-separated words and
packs them greedily (a line takes further words while
`len(line) + 1 + len(word) <= width`, this being the defining recursion of
`wrapLoop`); wrapping "aa bb cc" at width 5 yields ["aa bb", "cc"];
"supercalifragilistic" at width 5 is emitted unsplit on its own line; and
in general every produced line either fits the width or is a single input
word kept whole (never hyphenated or truncated). -/
theorem C2_wrap_text_greedy :
    wrap_text "aa bb cc" 5 = ["aa bb", "cc"]
    ∧ wrap_text "supercalifragilistic" 5 = ["supercalifragilistic"]
    ∧ ∀ (text : String) (width : Nat), ∀ l ∈ wrap_text text width,
        l.length ≤ width ∨ l ∈ pySplit text := by
  refine ⟨by decide, by decide, ?_⟩
  intro text width l hl
  exact wrapLoop_line_short_or_word width (pySplit text) (pySplit text) "" []
    (fun w hw => hw) (Or.inl rfl) (fun x hx => absurd hx (List.not_mem_nil x)) l hl

/-- Witness for C2 at a concrete input: the line "aa bb" produced when
wrapping "aa bb cc" at width 5 fits the width or is an input word. -/
theorem C2_wrap_text_greedy_witness :
    "aa bb".length ≤ 5 ∨ "aa bb" ∈ pySplit "aa bb cc" :=
  C2_wrap_text_greedy.2.2 "aa bb cc" 5 "aa bb" (by decide)

/-! ## main.py — resize step of `TCGApp.take_and_process_photo_custom`
(lines 474-479), identical arithmetic in `test_camera.take_and_process_photo`
(lines 40-45):

    aspect_ratio = original_height / float(original_width)
    new_height = int(self.image_width * aspect_ratio)

Python's float division and multiplication are modelled exactly over ℚ;
`int()` truncates toward zero, which on these nonnegative values is the
floor.  The counterexample below (512/3 ≈ 170.67) is far from any
double-precision rounding boundary. -/

def resize_new_height (image_width original_width original_height : Nat) : Int :=
  ⌊(image_width : ℚ) * ((original_height : ℚ) / (original_width : ℚ))⌋

/-- Counterexample to C3: a 3×2 source photo resized to target width 256
gets height `int(256 * 2/3) = 170`, while the claimed formula
`round(targetWidth * originalHeight / originalWidth)` gives 171. -/
theorem C3_resize_round_counterexample :
    resize_new_height 256 3 2 = 170
    ∧ round ((256 : ℚ) * 2 / 3) = 171
    ∧ (170 : ℤ) ≠ 171 := by
  refine ⟨?_, ?_, by decide⟩
  · unfold resize_new_height
    push_cast
    rw [Int.floor_eq_iff]
    norm_num
  · rw [round_eq, Int.floor_eq_iff]
    norm_num

/-- C3 (amended): the resize step produces
`targetHeight = floor(targetWidth * originalHeight / originalWidth)` —
`int()` truncation, not rounding to nearest. -/
theorem C3_resize_height_floor (image_width original_width original_height : Nat)
    (hw : 0 < original_width) :
    resize_new_height image_width original_width original_height
      = ((image_width * original_height) / original_width : ℕ) := by
  unfold resize_new_height
  have hq : (image_width : ℚ) * ((original_height : ℚ) / (original_width : ℚ))
      = ((image_width * original_height : ℕ) : ℚ) / ((original_width : ℕ) : ℚ) := by
    push_cast
    ring
  rw [hq]
  have hnn : (0 : ℚ) ≤ ((image_width * original_height : ℕ) : ℚ) / ((original_width : ℕ) : ℚ) := by
    positivity
  rw [← Int.toNat_of_nonneg (Int.floor_nonneg.mpr hnn), Int.floor_toNat,
    Nat.floor_div_eq_div]

/-- Witness for C3 (amended) at a concrete input: resizing a 3×2 photo to
width 256 yields height 170 = (256·2)/3 rounded down. -/
theorem C3_resize_height_floor_witness :
    resize_new_height 256 3 2 = ((256 * 2) / 3 : ℕ) :=
  C3_resize_height_floor 256 3 2 (by decide)

/-! ## food_label.py — `test_encoding_options` (lines 80-125): the code-page
trial loop.

The device is modelled by `supports : EncodingOption → Bool`, telling
whether `p.charcode(name)` succeeds or raises for each named code page
(`hasattr(p, 'charcode')` holds for the escpos printer class).  One loop
iteration prints a header line, then — except for the UTF-8 entry, which
sends re-encoded text without selecting a code page — calls
`p.charcode(encoding)` and prints the sample text; the `except` arm of the
loop prints an error line instead and the loop continues.  `Except.error`
in `encodingTrialBody` is the exception raised by `p.charcode`, carrying
the session state at the raise point; `encodingTrial` is the `try/except`
wrapper, so the whole loop is a total function: no exception escapes. -/

inductive EncodingOption
  | cp865
  | cp850
  | cp437
  | iso8859_1
  | utf8
deriving DecidableEq, Fintype

def encodings_to_test : List EncodingOption :=
  [EncodingOption.cp865, EncodingOption.cp850, EncodingOption.cp437,
   EncodingOption.iso8859_1, EncodingOption.utf8]

def encodingName : EncodingOption → String
  | EncodingOption.cp865 => "CP865"
  | EncodingOption.cp850 => "CP850"
  | EncodingOption.cp437 => "CP437"
  | EncodingOption.iso8859_1 => "ISO8859-1"
  | EncodingOption.utf8 => "UTF-8"

def encodingDescription : EncodingOption → String
  | EncodingOption.cp865 => "Norwegian/Danish"
  | EncodingOption.cp850 => "Western European"
  | EncodingOption.cp437 => "Original IBM PC"
  | EncodingOption.iso8859_1 => "Latin-1"
  | EncodingOption.utf8 => "Unicode UTF-8"

def encodingTestText : String := "Oksekjøtt - Løkpulver - Hvitløkspulver"

/-- Session state threaded through the loop: the code page last selected by
a successful `p.charcode` call (none yet at entry), and the text lines sent
to the printer. -/
structure EncodingTestState where
  charcodePage : Option EncodingOption
  printed : List String
deriving DecidableEq

def encodingHeaderLine (enc : EncodingOption) : String :=
  "\n" ++ encodingName enc ++ " (" ++ encodingDescription enc ++ "):\n"

/-- The error line `f"Error with {encoding}: {str(e)[:20]}...\n"`; the
truncated exception text is abstracted away. -/
def encodingErrorLine (enc : EncodingOption) : String :=
  "Error with " ++ encodingName enc ++ ": ...\n"

/-- The `try` block of one loop iteration of `test_encoding_options`.
`Except.error st` is the exception that `p.charcode` raises on an
unsupported code page, with `st` the session state at that point (the
header line has already been printed). -/
def encodingTrialBody (supports : EncodingOption → Bool) (st : EncodingTestState)
    (enc : EncodingOption) : Except EncodingTestState EncodingTestState :=
  let st1 : EncodingTestState := ⟨st.charcodePage, st.printed ++ [encodingHeaderLine enc]⟩
  if enc = EncodingOption.utf8 then
    Except.ok ⟨st1.charcodePage, st1.printed ++ [encodingTestText ++ "\n"]⟩
  else if supports enc then
    Except.ok ⟨some enc, st1.printed ++ [encodingTestText ++ "\n"]⟩
  else
    Except.error st1

/-- One full loop iteration: the `try` block with its `except` arm, which
prints the error line and lets the loop continue. -/
def encodingTrial (supports : EncodingOption → Bool) (st : EncodingTestState)
    (enc : EncodingOption) : EncodingTestState :=
  match encodingTrialBody supports st enc with
  | Except.ok st2 => st2
  | Except.error st2 => ⟨st2.charcodePage, st2.printed ++ [encodingErrorLine enc]⟩

/-- `food_label.test_encoding_options`, from the header print to the
closing `"End of encoding test\n"`.  The surrounding USB open/close and the
outer `try` are not part of the negotiation loop. -/
def test_encoding_options (supports : EncodingOption → Bool) : EncodingTestState :=
  let st0 : EncodingTestState :=
    ⟨none, ["ENCODING TEST\n", "================================" ++ "\n"]⟩
  let st1 := encodings_to_test.foldl (encodingTrial supports) st0
  ⟨st1.charcodePage,
    st1.printed ++ ["\n" ++ "================================" ++ "\n", "End of encoding test\n"]⟩

/-- Counterexample to C1 as stated: on a device that supports every named
candidate, the loop does not stop at the first accepted code page — it
keeps selecting each subsequent candidate, ending with ISO8859-1 active
rather than CP865, the first candidate the device supports. -/
theorem C1_first_accepted_counterexample :
    (test_encoding_options (fun _ => true)).charcodePage = some EncodingOption.iso8859_1
    ∧ encodings_to_test.head? = some EncodingOption.cp865
    ∧ some EncodingOption.iso8859_1 ≠ some EncodingOption.cp865 := by
  decide

/-- C1 (amended): the loop tries each caller-supplied candidate in
preference order and selects every candidate the device supports, so the
code page left active is the last supported named candidate (not the
first); there is no separate raw numeric-table fallback sequence in the
code.  If every candidate is rejected, the session ends with no code page
asserted, and in every case each rejection is caught inside the loop and
the session continues past the negotiation (the closing line is still
printed), so no exception escapes the negotiation itself. -/
theorem C1_encoding_negotiation (supports : EncodingOption → Bool) :
    (test_encoding_options supports).charcodePage
      = (encodings_to_test.filter
          (fun e => decide (e ≠ EncodingOption.utf8) && supports e)).getLast?
    ∧ ((∀ e, supports e = false) → (test_encoding_options supports).charcodePage = none)
    ∧ (test_encoding_options supports).printed.getLast? = some "End of encoding test\n" := by
  revert supports
  decide

/-- Witness for C1 (amended): on a device rejecting every candidate the
session ends with no code page asserted. -/
theorem C1_encoding_negotiation_witness :
    (test_encoding_options (fun _ => false)).charcodePage = none :=
  (C1_encoding_negotiation (fun _ => false)).2.1 (fun _ => rfl)

/-! ## getRandomPerson.py — `get_weighted_rarity` (lines 21-32)

`get_weighted_rarity` is `random.choices(rarities, weights=weights, k=1)[0]`
over the fixed `RARITY_WEIGHTS` table.  `choices` below is CPython's
`random.choices` for `k = 1` with exact rational arithmetic: build the
cumulative-weight list (`itertools.accumulate`), raise `ValueError` on a
length mismatch, `IndexError` on `cum_weights[-1]` of an empty list,
`ValueError` on a nonpositive total, and otherwise return
`population[bisect.bisect_right(cum_weights, random() * total, 0, n - 1)]`.
The entropy draw `random()` is the injected parameter `u ∈ [0, 1)`. -/

inductive PyError
  | indexError
  | valueError (msg : String)
deriving DecidableEq

/-- `list(itertools.accumulate(weights))`: the running partial sums. -/
def cumulativeWeights (ws : List ℚ) : List ℚ :=
  (List.range ws.length).map (fun k => (ws.take (k + 1)).sum)

/-- CPython `bisect.bisect_right(a, x, lo, hi)`: binary search returning
the insertion point, `while lo < hi: mid = (lo+hi)//2;
if x < a[mid]: hi = mid else lo = mid+1`. -/
def bisect_right (a : List ℚ) (x : ℚ) (lo hi : Nat) : Nat :=
  if lo < hi then
    let mid := (lo + hi) / 2
    if x < a.getD mid 0 then bisect_right a x lo mid
    else bisect_right a x (mid + 1) hi
  else lo
termination_by hi - lo
decreasing_by
  all_goals omega

/-- CPython `random.choices(population, weights=weights, k=1)[0]` with the
uniform draw `u` supplied explicitly. -/
def choices (population : List String) (weights : List ℚ) (u : ℚ) :
    Except PyError String :=
  if (cumulativeWeights weights).length ≠ population.length then
    Except.error (PyError.valueError "The number of weights does not match the population")
  else
    match (cumulativeWeights weights).getLast? with
    | none => Except.error PyError.indexError
    | some total =>
      if total ≤ 0 then
        Except.error (PyError.valueError "Total of weights must be greater than zero")
      else
        Except.ok (population.getD
          (bisect_right (cumulativeWeights weights) (u * total) 0 (population.length - 1)) "")

/-- The fixed `RARITY_WEIGHTS` table of `getRandomPerson.py` (2.5 and 0.5
written as exact rationals). -/
def RARITY_WEIGHTS : List (String × ℚ) :=
  [("E", 40), ("D", 30), ("C", 20), ("B", 7), ("A", 5 / 2), ("S", 1 / 2)]

/-- `getRandomPerson.get_weighted_rarity`. -/
def get_weighted_rarity (u : ℚ) : Except PyError String :=
  choices (RARITY_WEIGHTS.map Prod.fst) (RARITY_WEIGHTS.map Prod.snd) u

theorem cumulativeWeights_length (ws : List ℚ) :
    (cumulativeWeights ws).length = ws.length := by
  simp [cumulativeWeights]

theorem cumulativeWeights_getD (ws : List ℚ) (k : Nat) (h : k < ws.length) :
    (cumulativeWeights ws).getD k 0 = (ws.take (k + 1)).sum := by
  have hk : k < (cumulativeWeights ws).length := by rw [cumulativeWeights_length]; exact h
  rw [List.getD_eq_getElem _ _ hk]
  simp [cumulativeWeights]

theorem cumulativeWeights_getLast? (ws : List ℚ) (h : ws ≠ []) :
    (cumulativeWeights ws).getLast? = some ws.sum := by
  have hn : 0 < ws.length := List.length_pos.mpr h
  rw [List.getLast?_eq_getElem?, cumulativeWeights_length]
  have hk : ws.length - 1 < (cumulativeWeights ws).length := by
    rw [cumulativeWeights_length]; omega
  rw [List.getElem?_eq_getElem hk]
  simp only [cumulativeWeights, List.getElem_map, List.getElem_range]
  rw [show ws.length - 1 + 1 = ws.length from by omega, List.take_length]

theorem sum_take_succ (ws : List ℚ) (k : Nat) (h : k < ws.length) :
    (ws.take (k + 1)).sum = (ws.take k).sum + ws.getD k 0 := by
  rw [List.take_succ, List.sum_append, List.getD_eq_getElem _ _ h,
    List.getElem?_eq_getElem h]
  simp

theorem sum_take_monotone (ws : List ℚ) (hnn : ∀ w ∈ ws, 0 ≤ w) :
    Monotone (fun k => (ws.take k).sum) := by
  apply monotone_nat_of_le_succ
  intro k
  rcases Nat.lt_or_ge k ws.length with h | h
  · rw [sum_take_succ ws k h]
    have : 0 ≤ ws.getD k 0 := by
      rw [List.getD_eq_getElem _ _ h]
      exact hnn _ (List.getElem_mem h)
    linarith
  · rw [List.take_of_length_le h, List.take_of_length_le (by omega)]

theorem cumulativeWeights_sorted (ws : List ℚ) (hnn : ∀ w ∈ ws, 0 ≤ w) :
    ∀ i j, i ≤ j → j < (cumulativeWeights ws).length →
      (cumulativeWeights ws).getD i 0 ≤ (cumulativeWeights ws).getD j 0 := by
  intro i j hij hj
  rw [cumulativeWeights_length] at hj
  rw [cumulativeWeights_getD ws i (by omega), cumulativeWeights_getD ws j hj]
  exact sum_take_monotone ws hnn (by omega)

theorem bisect_right_bounds (a : List ℚ) (x : ℚ) :
    ∀ (fuel lo hi : Nat), hi - lo ≤ fuel → lo ≤ hi →
      lo ≤ bisect_right a x lo hi ∧ bisect_right a x lo hi ≤ hi := by
  intro fuel
  induction fuel with
  | zero =>
    intro lo hi hfuel hle
    rw [bisect_right, if_neg (by omega : ¬ lo < hi)]
    omega
  | succ n ih =>
    intro lo hi hfuel hle
    rw [bisect_right]
    by_cases hlt : lo < hi
    · rw [if_pos hlt]
      dsimp only
      by_cases hcmp : x < a.getD ((lo + hi) / 2) 0
      · rw [if_pos hcmp]
        have h := ih lo ((lo + hi) / 2) (by omega) (by omega)
        omega
      · rw [if_neg hcmp]
        have h := ih ((lo + hi) / 2 + 1) hi (by omega) (by omega)
        omega
    · rw [if_neg hlt]
      omega

theorem bisect_right_spec (a : List ℚ) (x : ℚ)
    (hmono : ∀ i j, i ≤ j → j < a.length → a.getD i 0 ≤ a.getD j 0) :
    ∀ (fuel lo hi : Nat), hi - lo ≤ fuel → lo ≤ hi → hi ≤ a.length →
      (∀ k, lo ≤ k → k < bisect_right a x lo hi → a.getD k 0 ≤ x)
      ∧ (∀ k, bisect_right a x lo hi ≤ k → k < hi → x < a.getD k 0) := by
  intro fuel
  induction fuel with
  | zero =>
    intro lo hi hfuel hle hlen
    rw [bisect_right, if_neg (by omega : ¬ lo < hi)]
    constructor
    · intro k h1 h2
      omega
    · intro k h1 h2
      omega
  | succ n ih =>
    intro lo hi hfuel hle hlen
    rw [bisect_right]
    by_cases hlt : lo < hi
    · rw [if_pos hlt]
      dsimp only
      by_cases hcmp : x < a.getD ((lo + hi) / 2) 0
      · rw [if_pos hcmp]
        have hih := ih lo ((lo + hi) / 2) (by omega) (by omega) (by omega)
        refine ⟨hih.1, ?_⟩
        intro k hk1 hk2
        by_cases hkm : k < (lo + hi) / 2
        · exact hih.2 k hk1 hkm
        · have hle2 : a.getD ((lo + hi) / 2) 0 ≤ a.getD k 0 :=
            hmono _ k (by omega) (by omega)
          linarith
      · rw [if_neg hcmp]
        have hih := ih ((lo + hi) / 2 + 1) hi (by omega) (by omega) hlen
        refine ⟨?_, hih.2⟩
        intro k hk1 hk2
        by_cases hkm : (lo + hi) / 2 + 1 ≤ k
        · exact hih.1 k hkm hk2
        · have h1 : a.getD k 0 ≤ a.getD ((lo + hi) / 2) 0 :=
            hmono k _ (by omega) (by omega)
          linarith [not_lt.mp hcmp]
    · rw [if_neg hlt]
      constructor
      · intro k h1 h2
        omega
      · intro k h1 h2
        omega

theorem list_sum_nonpos (ws : List ℚ) (h : ∀ w ∈ ws, w ≤ 0) : ws.sum ≤ 0 := by
  induction ws with
  | nil => simp
  | cons w rest ih =>
    rw [List.sum_cons]
    have h1 : w ≤ 0 := h w (List.mem_cons_self _ _)
    have h2 : rest.sum ≤ 0 := ih (fun x hx => h x (List.mem_cons_of_mem _ hx))
    linarith

/-- C4: sampling fails — `random.choices` raises — whenever the tier list is
empty or every weight is ≤ 0 (an `IndexError` from `cum_weights[-1]` on the
empty table, a `ValueError` on a weight-count mismatch or a nonpositive
total; the spec's `ConfigurationError` is its taxonomy name for this
failure class). -/
theorem C4_sampler_bad_table_fails (population : List String) (weights : List ℚ) (u : ℚ)
    (h : population = [] ∨ ∀ w ∈ weights, w ≤ 0) :
    ∃ e, choices population weights u = Except.error e := by
  by_cases hmatch : (cumulativeWeights weights).length ≠ population.length
  · exact ⟨PyError.valueError "The number of weights does not match the population",
      by rw [choices, if_pos hmatch]⟩
  · push_neg at hmatch
    rcases hws : weights with _ | ⟨w, rest⟩
    · refine ⟨PyError.indexError, ?_⟩
      rw [choices]
      rw [hws] at hmatch
      rw [if_neg (by simp [hmatch])]
      rfl
    · have hne : weights ≠ [] := by rw [hws]; exact List.cons_ne_nil _ _
      rw [← hws]
      have hsum : weights.sum ≤ 0 := by
        rcases h with h | h
        · exfalso
          rw [h] at hmatch
          rw [cumulativeWeights_length, hws] at hmatch
          simp at hmatch
        · exact list_sum_nonpos weights h
      refine ⟨PyError.valueError "Total of weights must be greater than zero", ?_⟩
      rw [choices, if_neg (by simp [hmatch]), cumulativeWeights_getLast? weights hne]
      dsimp only
      rw [if_pos hsum]

/-- Witness for C4: the empty table fails (with an `IndexError`). -/
theorem C4_sampler_bad_table_fails_witness :
    ∃ e, choices [] [] 0 = Except.error e :=
  C4_sampler_bad_table_fails [] [] 0 (Or.inl rfl)

/-- C5: for every weight table of nonnegative weights, a successful draw of
`random.choices` lands on an index of positive weight — a zero-weight tier
is never chosen; in particular, with a single positive-weight tier among
zero-weight tiers the sampler always returns that tier. -/
theorem C5_sampler_never_zero_weight :
    (∀ (population : List String) (weights : List ℚ) (u : ℚ) (s : String),
        population.length = weights.length →
        (∀ w ∈ weights, 0 ≤ w) →
        0 ≤ u → u < 1 →
        choices population weights u = Except.ok s →
        ∃ i, i < weights.length ∧ 0 < weights.getD i 0 ∧ population.getD i "" = s)
    ∧ (∀ (population : List String) (weights : List ℚ) (u : ℚ) (s : String) (i : Nat),
        population.length = weights.length →
        (∀ w ∈ weights, 0 ≤ w) →
        0 ≤ u → u < 1 →
        i < weights.length → 0 < weights.getD i 0 →
        (∀ j, j < weights.length → j ≠ i → weights.getD j 0 = 0) →
        choices population weights u = Except.ok s →
        s = population.getD i "") := by
  have main : ∀ (ps : List String) (ws : List ℚ) (u : ℚ) (s : String),
      ps.length = ws.length →
      (∀ w ∈ ws, 0 ≤ w) →
      0 ≤ u → u < 1 →
      choices ps ws u = Except.ok s →
      ∃ i, i < ws.length ∧ 0 < ws.getD i 0 ∧ ps.getD i "" = s := by
    intro ps ws u s hlen hnn hu0 hu1 hok
    have hws : ws ≠ [] := by
      intro hnil
      subst hnil
      have hps : ps = [] := List.length_eq_zero.mp hlen
      subst hps
      simp [choices, cumulativeWeights] at hok
    rw [choices, if_neg (by rw [cumulativeWeights_length, hlen]; simp),
      cumulativeWeights_getLast? ws hws] at hok
    dsimp only at hok
    by_cases htot : ws.sum ≤ 0
    · rw [if_pos htot] at hok
      simp at hok
    · rw [if_neg htot] at hok
      push_neg at htot
      injection hok with hok
      set n := ps.length with hn
      have hnl : n = ws.length := hlen
      have hn1 : 1 ≤ n := by
        rw [hnl]
        exact List.length_pos.mpr hws
      set x := u * ws.sum with hx
      have hx0 : 0 ≤ x := mul_nonneg hu0 (le_of_lt htot)
      have hx1 : x < ws.sum := by
        calc u * ws.sum < 1 * ws.sum := mul_lt_mul_of_pos_right hu1 htot
        _ = ws.sum := one_mul _
      have hmono := cumulativeWeights_sorted ws hnn
      have hspec := bisect_right_spec (cumulativeWeights ws) x hmono
        (n - 1) 0 (n - 1) (by omega) (Nat.zero_le _)
        (by rw [cumulativeWeights_length]; omega)
      have hbnd := bisect_right_bounds (cumulativeWeights ws) x
        (n - 1) 0 (n - 1) (by omega) (Nat.zero_le _)
      set r := bisect_right (cumulativeWeights ws) x 0 (n - 1) with hr
      have hrn : r < ws.length := by omega
      have hlow : (ws.take r).sum ≤ x := by
        rcases Nat.eq_zero_or_pos r with h0 | h0
        · rw [h0]
          simpa using hx0
        · have hcl := hspec.1 (r - 1) (Nat.zero_le _) (by omega)
          rw [cumulativeWeights_getD ws (r - 1) (by omega),
            show r - 1 + 1 = r from by omega] at hcl
          exact hcl
      have hhigh : x < (ws.take (r + 1)).sum := by
        rcases Nat.lt_or_ge r (n - 1) with hlt | hge
        · have hcr := hspec.2 r le_rfl hlt
          rw [cumulativeWeights_getD ws r hrn] at hcr
          exact hcr
        · rw [show r + 1 = ws.length from by omega, List.take_length]
          exact hx1
      have hstep := sum_take_succ ws r hrn
      exact ⟨r, hrn, by linarith, hok⟩
  refine ⟨main, ?_⟩
  intro ps ws u s i hlen hnn hu0 hu1 hi hpos hzero hok
  obtain ⟨k, hk, hkpos, hks⟩ := main ps ws u s hlen hnn hu0 hu1 hok
  by_cases hki : k = i
  · rw [← hks, hki]
  · exact absurd (hzero k hk hki ▸ hkpos) (lt_irrefl 0)

/-- Witness for C5 at a concrete table: with weights [0, 1, 0] the draw
u = 0 returns the middle (only positive-weight) entry. -/
theorem C5_sampler_never_zero_weight_witness :
    ("B" : String) = ["A", "B", "C"].getD 1 "" := by
  have hcum : cumulativeWeights [0, 1, 0] = [0, 1, 1] := by
    norm_num [cumulativeWeights, List.range_succ]
  have hb : bisect_right [0, 1, 1] 0 0 2 = 1 := by
    rw [bisect_right]
    norm_num [List.getD]
    rw [bisect_right]
    norm_num [List.getD]
    rw [bisect_right]
    norm_num
  have hok : choices ["A", "B", "C"] [0, 1, 0] 0 = Except.ok "B" := by
    rw [choices, hcum]
    norm_num
    rw [hb]
    rfl
  refine C5_sampler_never_zero_weight.2 ["A", "B", "C"] [0, 1, 0] 0 "B" 1 rfl
    ?_ le_rfl (by norm_num) (by norm_num) (by norm_num [List.getD]) ?_ hok
  · intro w hw
    simp at hw
    rcases hw with rfl | rfl | rfl <;> norm_num
  · intro j hj hji
    simp at hj
    interval_cases j
    · norm_num [List.getD]
    · exact absurd rfl hji
    · norm_num [List.getD]

/-! ## main.py — `TCGApp.generate_receipt` (lines 215-281),
`TCGApp.print_receipt` (lines 283-365), `TCGApp.create_receipt_record`
(lines 628-652), and `getRandomPerson.get_random_person` (lines 64-88).

The external collaborators are injected as data: whether the PocketBase
health check passes, the outcome of the camera/processing stage, whether
the printer/record POST raise, and the wall clock.  A job run is traced as
the arguments `print_receipt` was called with (if it was called), the list
of records successfully stored, and the job's final success/error.  The
distinct `raise` sites of the Python code are the constructors of
`JobError`; exact message strings are kept out of the model. -/

structure Person where
  id : String
  name : String
  rarity : String
  description : String
deriving DecidableEq, Inhabited

/-- One character of a zero-padded decimal field. -/
def digitChar (d : Nat) : Char := Char.ofNat (48 + d)

/-- `%02d` (for the in-range values `datetime` guarantees: `n < 100`). -/
def pad2digits (n : Nat) : List Char :=
  [digitChar (n / 10 % 10), digitChar (n % 10)]

/-- `%04d` (datetime years satisfy `year ≤ 9999`). -/
def pad4digits (n : Nat) : List Char :=
  [digitChar (n / 1000 % 10), digitChar (n / 100 % 10), digitChar (n / 10 % 10),
   digitChar (n % 10)]

/-- `%06d` (datetime microseconds satisfy `n < 1000000`). -/
def pad6digits (n : Nat) : List Char :=
  [digitChar (n / 100000 % 10), digitChar (n / 10000 % 10), digitChar (n / 1000 % 10),
   digitChar (n / 100 % 10), digitChar (n / 10 % 10), digitChar (n % 10)]

/-- The components of `datetime.now()`. -/
structure Clock where
  year : Nat
  month : Nat
  day : Nat
  hour : Nat
  minute : Nat
  second : Nat
  microsecond : Nat
deriving DecidableEq

/-- `datetime.now().strftime("%Y-%m-%d %H:%M:%S")`, as used by
`print_receipt`. -/
def strftime_receipt (c : Clock) : String :=
  String.mk (pad4digits c.year ++ ['-'] ++ pad2digits c.month ++ ['-'] ++ pad2digits c.day
    ++ [' '] ++ pad2digits c.hour ++ [':'] ++ pad2digits c.minute ++ [':']
    ++ pad2digits c.second)

/-- `datetime.now().isoformat()`: `YYYY-MM-DDTHH:MM:SS`, with `.ffffff`
appended exactly when the microsecond field is nonzero. -/
def isoformat (c : Clock) : String :=
  String.mk (pad4digits c.year ++ ['-'] ++ pad2digits c.month ++ ['-'] ++ pad2digits c.day
    ++ ['T'] ++ pad2digits c.hour ++ [':'] ++ pad2digits c.minute ++ [':']
    ++ pad2digits c.second
    ++ if c.microsecond = 0 then [] else '.' :: pad6digits c.microsecond)

/-- The record `create_receipt_record` POSTs to the `receipts` collection:
`{"person": person.get('id'), "reason": "other",
"created": datetime.now().isoformat() + "Z"}`. -/
structure ReceiptRecord where
  person : String
  reason : String
  created : String
deriving DecidableEq

def create_receipt_record_data (p : Person) (c : Clock) : ReceiptRecord :=
  ⟨p.id, "other", isoformat c ++ "Z"⟩

/-- Checker for an ISO-8601 UTC timestamp string,
`YYYY-MM-DDTHH:MM:SSZ` or `YYYY-MM-DDTHH:MM:SS.ffffffZ`. -/
def isIso8601UTC (t : String) : Bool :=
  match t.toList with
  | [y1, y2, y3, y4, '-', m1, m2, '-', d1, d2, 'T',
     h1, h2, ':', n1, n2, ':', s1, s2, 'Z'] =>
    [y1, y2, y3, y4, m1, m2, d1, d2, h1, h2, n1, n2, s1, s2].all Char.isDigit
  | [y1, y2, y3, y4, '-', m1, m2, '-', d1, d2, 'T',
     h1, h2, ':', n1, n2, ':', s1, s2, '.', f1, f2, f3, f4, f5, f6, 'Z'] =>
    [y1, y2, y3, y4, m1, m2, d1, d2, h1, h2, n1, n2, s1, s2,
     f1, f2, f3, f4, f5, f6].all Char.isDigit
  | _ => false

/-- The content-bearing printer directives emitted by `print_receipt`
(each `printer.set` style call, `printer.text`, `printer.image`,
`printer.ln`). -/
inductive Directive
  | setStyle (desc : String)
  | text (s : String)
  | image
  | feed (n : Nat)
deriving DecidableEq

/-- The directive sequence of `print_receipt(person, image)` on the real
printer path, in source order (the commented-out wrapping block and footer
are absent from the live code; `PIL_AVAILABLE` holds on the deployed
system, so the raster is printed exactly when an image was supplied).
`person.get('name', ...)`-style defaults are elided: catalog records carry
all four fields. -/
def print_receipt_directives (p : Person) (hasImage : Bool) (c : Clock) : List Directive :=
  [Directive.setStyle "align=center bold=True double_height=True font=b",
   Directive.text "IKT RECEIPT\n",
   Directive.feed 1,
   Directive.setStyle "align=center bold=True double_height=False",
   Directive.text (p.name ++ "\n"),
   Directive.setStyle "align=center bold=False",
   Directive.text ("Rarity: " ++ p.rarity ++ "\n"),
   Directive.feed 1,
   Directive.setStyle "align=left bold=False",
   Directive.text p.description,
   Directive.feed 1,
   Directive.setStyle "align=center bold=False",
   Directive.text ("Generated: " ++ strftime_receipt c ++ "\n"),
   Directive.feed 2]
  ++ (if hasImage then
        [Directive.setStyle "align=center", Directive.image, Directive.feed 2]
      else [])
  ++ [Directive.feed 2]

/-- `get_people_by_rarity` (lines 33-62): a network exception or a non-200
status is caught and yields `[]`; on 200 the item list is returned. -/
def get_people_by_rarity_result (fetch : Except String (List Person)) : List Person :=
  match fetch with
  | Except.ok items => items
  | Except.error _ => []

/-- Trace of one `get_random_person` call: its return value and how many
times it consulted the catalog gateway. -/
structure PersonDraw where
  result : Option Person
  fetchCalls : Nat
deriving DecidableEq

/-- `get_random_person` (lines 64-88): draw a rarity, fetch its candidates
once, return `None` on an empty list, else `random.choice` of the list
(the uniform index is injected as `pick % length`). -/
def get_random_person (fetch : Except String (List Person)) (pick : Nat) : PersonDraw :=
  let people := get_people_by_rarity_result fetch
  if people.isEmpty then ⟨none, 1⟩
  else ⟨some (people.getD (pick % people.length) default), 1⟩

/-- The distinct `raise` sites reached by `generate_receipt`; each is
caught by its outer `except`, which renders the message — the Python
messages are "Cannot connect to PocketBase...", "Could not retrieve a
random person from database.", `f"Printer error: {e}"` and the
`create_receipt_record` failure text. -/
inductive JobError
  | dbUnreachable
  | noPersonFound
  | printerError (msg : String)
  | recordSaveError (msg : String)
deriving DecidableEq

/-- The injected environment of one `generate_receipt` run. -/
structure JobEnv where
  dbConnected : Bool
  randomPerson : Option Person
  cameraAvailable : Bool
  photoOutcome : Except String (Option Unit)
  printerOutcome : Option String
  recordOutcome : Option String
  clock : Clock

/-- Observable trace of one `generate_receipt` run: the arguments
`print_receipt` was invoked with (none if it was never reached), the
records stored in the receipts collection, and the final outcome. -/
structure JobTrace where
  printed : Option (List Directive)
  records : List ReceiptRecord
  result : Except JobError Unit

/-- `TCGApp.generate_receipt(testing)`: check the database, draw a person,
run the camera stage inside its own `try/except` (any failure or a `None`
capture downgrades to no image), print, and — unless `testing` — store the
receipt record.  Failures of printing or storing propagate to the outer
handler. -/
def generate_receipt (testing : Bool) (env : JobEnv) : JobTrace :=
  if env.dbConnected = false then ⟨none, [], Except.error JobError.dbUnreachable⟩
  else
    match env.randomPerson with
    | none => ⟨none, [], Except.error JobError.noPersonFound⟩
    | some person =>
      let processed_image : Bool :=
        if env.cameraAvailable then
          match env.photoOutcome with
          | Except.ok (some _) => true
          | Except.ok none => false
          | Except.error _ => false
        else false
      let dirs := print_receipt_directives person processed_image env.clock
      match env.printerOutcome with
      | some e => ⟨some dirs, [], Except.error (JobError.printerError e)⟩
      | none =>
        if testing then ⟨some dirs, [], Except.ok ()⟩
        else
          match env.recordOutcome with
          | some e => ⟨some dirs, [], Except.error (JobError.recordSaveError e)⟩
          | none => ⟨some dirs, [create_receipt_record_data person env.clock], Except.ok ()⟩

theorem digitChar_mod_isDigit (m : Nat) : (digitChar (m % 10)).isDigit = true := by
  have h : m % 10 < 10 := Nat.mod_lt _ (by norm_num)
  revert h
  generalize m % 10 = d
  intro h
  interval_cases d <;> decide

theorem isoformat_isIso8601UTC (c : Clock) :
    isIso8601UTC (isoformat c ++ "Z") = true := by
  have hz : ("Z" : String).toList = ['Z'] := rfl
  have ht : (isoformat c ++ "Z").toList = (isoformat c).toList ++ ['Z'] := by
    rw [← hz]
    simp [String.toList, String.data_append]
  rw [isIso8601UTC, ht, isoformat]
  by_cases hu : c.microsecond = 0
  · rw [if_pos hu]
    simp only [String.toList, pad4digits, pad2digits, List.cons_append, List.nil_append,
      List.append_nil, List.append_assoc]
    simp [List.all, digitChar_mod_isDigit]
  · rw [if_neg hu]
    simp only [String.toList, pad4digits, pad2digits, pad6digits, List.cons_append,
      List.nil_append, List.append_nil, List.append_assoc]
    simp [List.all, digitChar_mod_isDigit]

/-- C6: a camera/processing failure during a job is recovered locally and
is non-fatal — the run is indistinguishable from one whose capture simply
returned no image, and when the printer succeeds the receipt is printed
without a raster but with the text portions (the description among them)
intact; whereas a printer failure or a record-save failure is not
recovered: it propagates and decides the job outcome. -/
theorem C6_photo_failure_nonfatal (testing : Bool) (person : Person) (emsg : String)
    (pr rec : Option String) (clk : Clock) :
    generate_receipt testing ⟨true, some person, true, Except.error emsg, pr, rec, clk⟩
      = generate_receipt testing ⟨true, some person, true, Except.ok none, pr, rec, clk⟩
    ∧ (pr = none →
        (generate_receipt testing
            ⟨true, some person, true, Except.error emsg, pr, rec, clk⟩).printed
          = some (print_receipt_directives person false clk)
        ∧ Directive.text person.description ∈ print_receipt_directives person false clk)
    ∧ (∀ e, pr = some e →
        (generate_receipt testing
            ⟨true, some person, true, Except.error emsg, pr, rec, clk⟩).result
          = Except.error (JobError.printerError e))
    ∧ (pr = none → testing = false → ∀ e, rec = some e →
        (generate_receipt testing
            ⟨true, some person, true, Except.error emsg, pr, rec, clk⟩).result
          = Except.error (JobError.recordSaveError e)) := by
  refine ⟨by simp [generate_receipt], ?_, ?_, ?_⟩
  · intro hpr
    subst hpr
    constructor
    · rcases testing <;> rcases rec with _ | e <;> simp [generate_receipt]
    · simp [print_receipt_directives]
  · intro e hpr
    subst hpr
    simp [generate_receipt]
  · intro hpr htest e hrec
    subst hpr htest hrec
    simp [generate_receipt]

/-- Witness for C6 at a concrete job: camera raised, printer fine — the
receipt is printed without an image and carries the description text. -/
theorem C6_photo_failure_nonfatal_witness :
    (generate_receipt false
        ⟨true, some ⟨"p1", "Ada", "S", "About Ada"⟩, true, Except.error "camera broke",
         none, none, ⟨2026, 10, 12, 1, 2, 3, 4⟩⟩).printed
      = some (print_receipt_directives ⟨"p1", "Ada", "S", "About Ada"⟩ false
          ⟨2026, 10, 12, 1, 2, 3, 4⟩)
    ∧ Directive.text (Person.mk "p1" "Ada" "S" "About Ada").description
        ∈ print_receipt_directives ⟨"p1", "Ada", "S", "About Ada"⟩ false
            ⟨2026, 10, 12, 1, 2, 3, 4⟩ :=
  (C6_photo_failure_nonfatal false ⟨"p1", "Ada", "S", "About Ada"⟩ "camera broke"
    none none ⟨2026, 10, 12, 1, 2, 3, 4⟩).2.1 rfl

/-- C7: a failed or empty catalog fetch for the drawn rarity makes
`get_random_person` return `None` after exactly one fetch (no retry), and
`generate_receipt` then aborts at the "Could not retrieve a random person
from database." raise — the surface the spec calls `NoCandidatesError` —
with no print directive issued and no record stored. -/
theorem C7_no_candidates_aborts (testing : Bool) (env : JobEnv)
    (fetch : Except String (List Person)) (pick : Nat)
    (hfetch : get_people_by_rarity_result fetch = [])
    (hdb : env.dbConnected = true)
    (hperson : env.randomPerson = (get_random_person fetch pick).result) :
    (get_random_person fetch pick).fetchCalls = 1
    ∧ (get_random_person fetch pick).result = none
    ∧ (generate_receipt testing env).printed = none
    ∧ (generate_receipt testing env).records = []
    ∧ (generate_receipt testing env).result = Except.error JobError.noPersonFound := by
  have hres : (get_random_person fetch pick).result = none := by
    simp [get_random_person, hfetch]
  have hgen : generate_receipt testing env = ⟨none, [], Except.error JobError.noPersonFound⟩ := by
    rw [generate_receipt, if_neg (by simp [hdb]), hperson, hres]
  refine ⟨?_, hres, ?_, ?_, ?_⟩
  · simp [get_random_person, hfetch]
  · rw [hgen]
  · rw [hgen]
  · rw [hgen]

/-- Witness for C7: a network-failed fetch aborts a concrete job before
printing. -/
theorem C7_no_candidates_aborts_witness :
    (get_random_person (Except.error "connection refused") 0).fetchCalls = 1
    ∧ (get_random_person (Except.error "connection refused") 0).result = none
    ∧ (generate_receipt false
        ⟨true, none, false, Except.ok none, none, none, ⟨2026, 10, 12, 1, 2, 3, 4⟩⟩).printed = none
    ∧ (generate_receipt false
        ⟨true, none, false, Except.ok none, none, none, ⟨2026, 10, 12, 1, 2, 3, 4⟩⟩).records = []
    ∧ (generate_receipt false
        ⟨true, none, false, Except.ok none, none, none, ⟨2026, 10, 12, 1, 2, 3, 4⟩⟩).result
        = Except.error JobError.noPersonFound :=
  C7_no_candidates_aborts false
    ⟨true, none, false, Except.ok none, none, none, ⟨2026, 10, 12, 1, 2, 3, 4⟩⟩
    (Except.error "connection refused") 0 rfl rfl rfl

/-- C8: a completed non-test job stores exactly one record in the receipts
collection; on the success path that record is
`create_receipt_record_data`, whose fields are the person's id, the
default reason "other", and `datetime.now().isoformat() + "Z"` — a
well-formed ISO-8601 timestamp string. -/
theorem C8_one_record_per_job :
    (∀ env : JobEnv, (generate_receipt false env).result = Except.ok () →
        (generate_receipt false env).records.length = 1)
    ∧ (∀ (person : Person) (cam : Bool) (photo : Except String (Option Unit)) (clk : Clock),
        (generate_receipt false ⟨true, some person, cam, photo, none, none, clk⟩).records
          = [create_receipt_record_data person clk])
    ∧ (∀ (person : Person) (clk : Clock),
        (create_receipt_record_data person clk).person = person.id
        ∧ (create_receipt_record_data person clk).reason = "other"
        ∧ isIso8601UTC (create_receipt_record_data person clk).created = true) := by
  refine ⟨?_, ?_, ?_⟩
  · intro env hok
    rcases env with ⟨db, rp, cam, photo, pr, rec, clk⟩
    rcases db <;> rcases rp with _ | person <;> rcases pr with _ | e <;>
      rcases rec with _ | e2 <;> simp [generate_receipt] at hok ⊢
  · intro person cam photo clk
    simp [generate_receipt]
  · intro person clk
    exact ⟨rfl, rfl, isoformat_isIso8601UTC clk⟩

/-- Witness for C8: a concrete successful non-test job stores exactly one
record. -/
theorem C8_one_record_per_job_witness :
    (generate_receipt false
        ⟨true, some ⟨"p1", "Ada", "S", "About Ada"⟩, false, Except.ok none, none, none,
         ⟨2026, 10, 12, 13, 37, 5, 123456⟩⟩).records.length = 1 :=
  C8_one_record_per_job.1
    ⟨true, some ⟨"p1", "Ada", "S", "About Ada"⟩, false, Except.ok none, none, none,
     ⟨2026, 10, 12, 13, 37, 5, 123456⟩⟩
    (by simp [generate_receipt])

/-- C10: a test-mode job (`testing=True`) stores no record — the database
is untouched (`create_receipt_record` is never reached) — while the
printing step receives exactly the same directives as a normal job in the
same environment. -/
theorem C10_test_mode_prints_without_record (env : JobEnv) :
    (generate_receipt true env).records = []
    ∧ (generate_receipt true env).printed = (generate_receipt false env).printed := by
  rcases env with ⟨db, rp, cam, photo, pr, rec, clk⟩
  rcases db <;> rcases rp with _ | person <;> rcases pr with _ | e <;>
    rcases rec with _ | e2 <;> simp [generate_receipt]
